import Mathlib

/-!
Verification development for the drift-config table-store synchronization
and diff core. The visible source file (src/driftconfig/cli.py) is the CLI
layer; it calls into the relib/config core modules (diff_meta, diff_tables,
push_to_origin, pull_from_origin, Table.add, Table.update, checksums) whose
source is not part of the repository snapshot. Those core operations are
therefore modelled from the specification, as marked on each definition.
The CLI-layer save/skip decisions of _pull_command and push_command are
embedded directly from cli.py.
-/

namespace DriftConfig

/-- A scalar field value of a row. Modelled from the spec: rows are mappings
from field name to scalar or structured value; scalars suffice for the
properties under study. -/
inductive Value where
  | vstr (s : String)
  | vint (n : Int)
  | vbool (b : Bool)
  | vnull
deriving DecidableEq, Repr

/-- A row is a mapping from field name to value, represented as an
association list. -/
abbrev Row := List (String × Value)

/-- Look up a field value in a row (first binding wins, as in a mapping). -/
def rowGet (r : Row) (f : String) : Option Value :=
  (r.find? (fun p => decide (p.1 = f))).map (fun p => p.2)

/-- Canonical content of a row: the multiset of its field bindings, so that
incidental ordering of fields does not affect identity. -/
def canonRow (r : Row) : Multiset (String × Value) :=
  (r : Multiset (String × Value))

/-- The content hash of one table. Modelled from the spec: a stable hash
over sorted-by-key row content, so that incidental ordering of row storage
never affects the value. The hash is idealized as the canonical (order
independent) content itself, i.e. the multiset of canonical rows. -/
def tableChecksum (rows : List Row) : Multiset (Multiset (String × Value)) :=
  ((rows.map canonRow : List (Multiset (String × Value))) : Multiset (Multiset (String × Value)))

/-- A table: a primary-key definition (one field or a field combination)
plus an ordered sequence of rows. -/
structure Table where
  pk : List String
  rows : List Row
deriving DecidableEq, Repr

/-- A table store: a mapping from table name to table. -/
abbrev TableStore := List (String × Table)

/-- The content hash of a whole table store. Modelled from the spec:
recomputed deterministically from table contents, so two stores with
identical data produce identical checksums regardless of history. -/
def storeChecksum (ts : TableStore) : Multiset (String × Multiset (Multiset (String × Value))) :=
  ((ts.map (fun nt => (nt.1, tableChecksum nt.2.rows)) :
      List (String × Multiset (Multiset (String × Value)))) :
    Multiset (String × Multiset (Multiset (String × Value))))

/-- Checksum type abbreviation for readability. -/
abbrev Checksum := Multiset (String × Multiset (Multiset (String × Value)))

/-- Meta record of a table store. Modelled from the spec: checksum of the
entire store, per-table checksums, last-modified timestamp, per-table
timestamps. -/
structure Meta where
  checksum : Checksum
  table_checksums : List (String × Multiset (Multiset (String × Value)))
  last_modified : Int
  table_timestamps : List (String × Int)
deriving DecidableEq

/-- Recompute the meta record of a table store at a given time. Modelled
from the spec: created on every save, recomputed deterministically from
table contents. -/
def computeMeta (ts : TableStore) (time : Int) : Meta :=
  { checksum := storeChecksum ts
    table_checksums := ts.map (fun nt => (nt.1, tableChecksum nt.2.rows))
    last_modified := time
    table_timestamps := ts.map (fun nt => (nt.1, time)) }

/-- Table names listed in a meta record. -/
def tableNames (m : Meta) : List String :=
  m.table_checksums.map (fun p => p.1)

/-- Per-table checksum lookup in a meta record. -/
def lookupTC (m : Meta) (n : String) : Option (Multiset (Multiset (String × Value))) :=
  (m.table_checksums.find? (fun p => decide (p.1 = n))).map (fun p => p.2)

/-- Result of the metadata differ. -/
structure MetaDiff where
  identical : Bool
  checksum_first : Checksum
  checksum_second : Checksum
  modified_diff : Int
  new_tables : List String
  deleted_tables : List String
  modified_tables : List String
deriving DecidableEq

/-- Metadata differ. Modelled from the spec: identical iff the two store
checksums are equal; per-table changes derived by set difference on table
name keys and pairwise checksum comparison; modified_diff is the absolute
time delta between the two last_modified stamps. Source function diff_meta
of driftconfig.relib is not in the snapshot. -/
def diff_meta (m1 m2 : Meta) : MetaDiff :=
  { identical := decide (m1.checksum = m2.checksum)
    checksum_first := m1.checksum
    checksum_second := m2.checksum
    modified_diff := |m1.last_modified - m2.last_modified|
    new_tables := (tableNames m2).filter (fun n => decide (n ∉ tableNames m1))
    deleted_tables := (tableNames m1).filter (fun n => decide (n ∉ tableNames m2))
    modified_tables := (tableNames m1).filter
      (fun n => decide (n ∈ tableNames m2 ∧ lookupTC m1 n ≠ lookupTC m2 n)) }

/-- The primary-key value of a row under a primary-key definition. -/
def keyOf (pk : List String) (r : Row) : List (Option Value) :=
  pk.map (rowGet r)

/-- Find the row with a given primary-key value (key-indexed lookup). -/
def findByKey (pk : List String) (rows : List Row) (k : List (Option Value)) : Option Row :=
  rows.find? (fun r => decide (keyOf pk r = k))

/-- The field names on which two rows differ (field-level equality check,
over the union of both rows field names). -/
def changedFields (ra rb : Row) : List String :=
  ((ra.map (fun p => p.1)) ++ (rb.map (fun p => p.1))).dedup.filter
    (fun f => decide (rowGet ra f ≠ rowGet rb f))

/-- One modified-row report of the table differ: the primary-key value and
the changed field names. -/
structure RowMod where
  key : List (Option Value)
  changed_fields : List String
deriving DecidableEq, Repr

/-- Result of the table differ. -/
structure TableDiff where
  added : List Row
  removed : List Row
  modified : List RowMod
deriving DecidableEq, Repr

/-- Table differ. Modelled from the spec: rows are matched by primary key
only; rows of b whose key is absent from a are added, rows of a whose key
is absent from b are removed, rows present in both with differing field
values are modified. Source function diff_tables of driftconfig.relib is
not in the snapshot. -/
def diff_tables (pk : List String) (a b : List Row) : TableDiff :=
  { added := b.filter (fun rb => (findByKey pk a (keyOf pk rb)).isNone)
    removed := a.filter (fun ra => (findByKey pk b (keyOf pk ra)).isNone)
    modified := a.filterMap (fun ra =>
      match findByKey pk b (keyOf pk ra) with
      | none => none
      | some rb =>
        if changedFields ra rb = [] then none
        else some { key := keyOf pk ra, changed_fields := changedFields ra rb }) }

/-- Invariant of a table: primary-key values are unique among its rows. -/
def uniquePK (t : Table) : Prop :=
  (t.rows.map (keyOf t.pk)).Nodup

instance (t : Table) : Decidable (uniquePK t) := by
  unfold uniquePK; infer_instance

/-- Insert a row. Modelled from the spec: add inserts, rejecting on a
duplicate primary key (rejection is modelled as none). Source method
Table.add of driftconfig.relib is not in the snapshot. -/
def Table.add (t : Table) (r : Row) : Option Table :=
  if (findByKey t.pk t.rows (keyOf t.pk r)).isSome then none
  else some { t with rows := t.rows ++ [r] }

/-- Insert or replace a row keyed by primary key. Modelled from the spec:
update replaces the existing row with the matching key or inserts if
absent. Source method Table.update of driftconfig.relib is not in the
snapshot. -/
def Table.update (t : Table) (r : Row) : Table :=
  if (findByKey t.pk t.rows (keyOf t.pk r)).isSome then
    { t with rows := t.rows.map (fun r0 => if keyOf t.pk r0 = keyOf t.pk r then r else r0) }
  else
    { t with rows := t.rows ++ [r] }

/-- Reason codes of sync results. Modelled from the spec section on the
sync protocol and error taxonomy. -/
inductive Reason where
  | local_is_modified
  | origin_has_changed
  | up_to_date
  | pulled_from_origin
  | pushed
deriving DecidableEq, Repr

/-- A local working copy: the table store plus the meta record recorded at
the last successful pull from origin (the base snapshot). -/
structure LocalStore where
  ts : TableStore
  base_meta : Meta
deriving DecidableEq

/-- The origin copy held by the authoritative backend: its table store and
its stored meta record. -/
structure Origin where
  ts : TableStore
  meta : Meta
deriving DecidableEq

/-- Structured result of a pull. -/
structure PullResult where
  pulled : Bool
  reason : Reason
  table_store : Option TableStore
deriving DecidableEq

/-- Structured result of a push. -/
structure PushResult where
  pushed : Bool
  reason : Reason
  time_diff : Option Int
deriving DecidableEq

/-- Pull protocol. Modelled from the spec: if the freshly computed local
checksum differs from the base snapshot checksum and ignore_if_modified is
false, refuse with reason local_is_modified; else if the origin checksum
equals the current local checksum and force is false, report up_to_date
with no data transferred; otherwise take the full origin table store and
install it (the new base snapshot is the origin meta). Source function
pull_from_origin of driftconfig.config is not in the snapshot. -/
def pull_from_origin (loc : LocalStore) (origin : Origin)
    (ignore_if_modified force : Bool) : PullResult × LocalStore :=
  if storeChecksum loc.ts ≠ loc.base_meta.checksum ∧ ignore_if_modified = false then
    ({ pulled := false, reason := .local_is_modified, table_store := none }, loc)
  else if origin.meta.checksum = storeChecksum loc.ts ∧ force = false then
    ({ pulled := true, reason := .up_to_date, table_store := none }, loc)
  else
    ({ pulled := true, reason := .pulled_from_origin, table_store := some origin.ts },
     { ts := origin.ts, base_meta := origin.meta })

/-- Push protocol. Modelled from the spec: if the origin checksum differs
from the base snapshot checksum recorded at the last successful pull and
force is false, refuse with reason origin_has_changed and the elapsed time
diff; otherwise write the local table store to origin and record the new
origin checksum as the local base. Source function push_to_origin of
driftconfig.config is not in the snapshot. -/
def push_to_origin (loc : LocalStore) (origin : Origin) (force : Bool)
    (time : Int) : PushResult × LocalStore × Origin :=
  if origin.meta.checksum ≠ loc.base_meta.checksum ∧ force = false then
    ({ pushed := false, reason := .origin_has_changed,
       time_diff := some |origin.meta.last_modified - loc.base_meta.last_modified| },
     loc, origin)
  else
    let new_meta := computeMeta loc.ts time
    ({ pushed := true, reason := .pushed, time_diff := none },
     { ts := loc.ts, base_meta := new_meta },
     { ts := loc.ts, meta := new_meta })

/-- A backend holding the origin, which may be unavailable (infrastructure
failure). -/
structure Backend where
  avail : Bool
  origin : Origin
deriving DecidableEq

/-- Pull through a backend: infrastructure failure propagates as an error,
every divergence outcome is a structured result. -/
def pull_via_backend (loc : LocalStore) (b : Backend)
    (ignore_if_modified force : Bool) : Except Unit (PullResult × LocalStore) :=
  if b.avail = false then .error ()
  else .ok (pull_from_origin loc b.origin ignore_if_modified force)

/-- Push through a backend: infrastructure failure propagates as an error,
every divergence outcome is a structured result. -/
def push_via_backend (loc : LocalStore) (b : Backend) (force : Bool)
    (time : Int) : Except Unit (PushResult × LocalStore × Origin) :=
  if b.avail = false then .error ()
  else .ok (push_to_origin loc b.origin force time)

/-- CLI pull save decision, embedded from cli.py lines 310 to 321: when the
result is not pulled, only a message is printed; when it is pulled with
reason pulled_from_origin, the returned table store is saved to the local
file backend; otherwise no save occurs. Returns the resulting disk state
and whether a save occurred. -/
def pullCommandSave (disk : TableStore) (r : PullResult) : TableStore × Bool :=
  if r.pulled = true ∧ r.reason = Reason.pulled_from_origin then
    (r.table_store.getD disk, true)
  else
    (disk, false)

/-- CLI push command, embedded from cli.py lines 401 to 419: run
push_to_origin on the loaded table store; only when the result reports
pushed is the table store saved back to the local file backend. Returns
the resulting disk state, whether a save occurred, and the push outcome. -/
def pushCommand (disk : TableStore) (loc : LocalStore) (origin : Origin)
    (force : Bool) (time : Int) : (TableStore × Bool) × PushResult × LocalStore × Origin :=
  let out := push_to_origin loc origin force time
  if out.1.pushed = true then ((loc.ts, true), out)
  else ((disk, false), out)

/-! Concrete fixtures used by witnesses and counterexamples. -/

/-- A sample row with id 1 and name x. -/
def rowA : Row := [("id", .vint 1), ("name", .vstr "x")]

/-- A sample row with id 1 and name y. -/
def rowB : Row := [("id", .vint 1), ("name", .vstr "y")]

/-- A sample row with id 2 and name z. -/
def rowC : Row := [("id", .vint 2), ("name", .vstr "z")]

/-- A sample table keyed by id. -/
def T1 : Table := { pk := ["id"], rows := [rowA, rowC] }

/-- The same table contents with the internal row storage reordered. -/
def T2 : Table := { pk := ["id"], rows := [rowC, rowA] }

/-- A sample table store. -/
def S1 : TableStore := [("t", T1)]

/-- A table store holding the same set of rows per table as S1, with
different incidental row ordering. -/
def S2 : TableStore := [("t", T2)]

/-! Helper lemmas. -/

/-- Key lookup fails exactly when no row carries the key. -/
theorem findByKey_eq_none {pk : List String} {rows : List Row} {k : List (Option Value)} :
    findByKey pk rows k = none ↔ ∀ r ∈ rows, keyOf pk r ≠ k := by
  simp [findByKey, List.find?_eq_none]

/-- Under unique keys, looking up the key of a member row returns that row. -/
theorem findByKey_self {pk : List String} {rows : List Row} {r : Row}
    (h : (rows.map (keyOf pk)).Nodup) (hr : r ∈ rows) :
    findByKey pk rows (keyOf pk r) = some r := by
  induction rows with
  | nil => cases hr
  | cons r0 rest ih =>
    rcases List.mem_cons.mp hr with h0 | h0
    · subst h0
      simp [findByKey, List.find?_cons_of_pos]
    · by_cases hk : keyOf pk r0 = keyOf pk r
      · exfalso
        have hmem : keyOf pk r ∈ rest.map (keyOf pk) := List.mem_map_of_mem _ h0
        have : keyOf pk r0 ∉ rest.map (keyOf pk) := (List.nodup_cons.mp (by simpa using h)).1
        exact this (hk ▸ hmem)
      · have : findByKey pk (r0 :: rest) (keyOf pk r) = findByKey pk rest (keyOf pk r) := by
          simp [findByKey, List.find?_cons_of_neg, hk]
        rw [this]
        exact ih (List.nodup_cons.mp (by simpa using h)).2 h0

/-- A row compared to itself has no changed fields. -/
theorem changedFields_self (r : Row) : changedFields r r = [] := by
  simp [changedFields]

/-- Table checksums are invariant under permutation of row storage. -/
theorem tableChecksum_perm {a b : List Row} (h : a.Perm b) :
    tableChecksum a = tableChecksum b :=
  Multiset.coe_eq_coe.mpr (h.map canonRow)

/-- Store checksums agree for stores with the same table names and the same
set of rows per table. -/
theorem storeChecksum_congr {ts1 ts2 : TableStore}
    (h : List.Forall₂ (fun x y => x.1 = y.1 ∧ x.2.rows.Perm y.2.rows) ts1 ts2) :
    storeChecksum ts1 = storeChecksum ts2 := by
  unfold storeChecksum
  congr 1
  induction h with
  | nil => rfl
  | cons h1 h2 ih =>
    simp only [List.map_cons, ih]
    congr 1
    exact Prod.ext h1.1 (tableChecksum_perm h1.2)

/-! Claim theorems. -/

/-- C7: primary-key values are unique among a table's rows at all times:
add inserts only when no existing row has the same primary-key value and
rejects a duplicate, update replaces the existing row with the matching
key or inserts if absent, and both preserve key uniqueness. -/
theorem C7_pk_uniqueness (t : Table) (r : Row) (h : uniquePK t) :
    (∀ t2, t.add r = some t2 → uniquePK t2)
    ∧ uniquePK (t.update r)
    ∧ (t.add r = none ↔ ∃ r0 ∈ t.rows, keyOf t.pk r0 = keyOf t.pk r) := by
  have keys_append : ∀ rs : List Row,
      ((rs ++ [r]).map (keyOf t.pk)) = rs.map (keyOf t.pk) ++ [keyOf t.pk r] := by
    intro rs; simp
  refine ⟨?_, ?_, ?_⟩
  · intro t2 ht2
    unfold Table.add at ht2
    by_cases hfind : (findByKey t.pk t.rows (keyOf t.pk r)).isSome
    · simp [hfind] at ht2
    · simp [hfind] at ht2
      have hnone : findByKey t.pk t.rows (keyOf t.pk r) = none :=
        Option.not_isSome_iff_eq_none.mp hfind
      have habs : ∀ r0 ∈ t.rows, keyOf t.pk r0 ≠ keyOf t.pk r :=
        findByKey_eq_none.mp hnone
      subst ht2
      unfold uniquePK
      simp only [keys_append]
      rw [List.nodup_append]
      refine ⟨h, List.nodup_singleton _, ?_⟩
      intro k hk hk1
      have hk2 : k = keyOf t.pk r := by simpa using hk1
      rcases List.mem_map.mp hk with ⟨r0, hr0, hkeq⟩
      exact habs r0 hr0 (hkeq.trans hk2)
  · unfold Table.update
    by_cases hfind : (findByKey t.pk t.rows (keyOf t.pk r)).isSome
    · simp only [hfind, if_pos]
      unfold uniquePK
      have hmapeq :
          (t.rows.map (fun r0 => if keyOf t.pk r0 = keyOf t.pk r then r else r0)).map (keyOf t.pk)
            = t.rows.map (keyOf t.pk) := by
        rw [List.map_map]
        apply List.map_congr_left
        intro r0 _
        by_cases hk : keyOf t.pk r0 = keyOf t.pk r
        · simp [hk]
        · simp [hk]
      simpa [hmapeq] using h
    · simp only [hfind, if_neg, Bool.false_eq_true, not_false_iff]
      have hnone : findByKey t.pk t.rows (keyOf t.pk r) = none :=
        Option.not_isSome_iff_eq_none.mp hfind
      have habs : ∀ r0 ∈ t.rows, keyOf t.pk r0 ≠ keyOf t.pk r :=
        findByKey_eq_none.mp hnone
      unfold uniquePK
      simp only [keys_append]
      rw [List.nodup_append]
      refine ⟨h, List.nodup_singleton _, ?_⟩
      intro k hk hk1
      have hk2 : k = keyOf t.pk r := by simpa using hk1
      rcases List.mem_map.mp hk with ⟨r0, hr0, hkeq⟩
      exact habs r0 hr0 (hkeq.trans hk2)
  · unfold Table.add
    constructor
    · intro hadd
      by_cases hfind : (findByKey t.pk t.rows (keyOf t.pk r)).isSome
      · rcases Option.isSome_iff_exists.mp hfind with ⟨r0, hr0⟩
        have hmem : r0 ∈ t.rows := List.mem_of_find?_eq_some hr0
        have hkey : keyOf t.pk r0 = keyOf t.pk r := by
          have := List.find?_some hr0
          simpa using this
        exact ⟨r0, hmem, hkey⟩
      · simp [hfind] at hadd
    · intro ⟨r0, hr0, hkey⟩
      have hsome : (findByKey t.pk t.rows (keyOf t.pk r)).isSome := by
        rw [Option.isSome_iff_exists]
        have : ∃ x, x ∈ t.rows ∧ (fun rr => decide (keyOf t.pk rr = keyOf t.pk r)) x = true :=
          ⟨r0, hr0, by simpa using hkey⟩
        rcases List.find?_isSome.mpr this with h2
        exact Option.isSome_iff_exists.mp h2
      simp [hsome]

/-- C7 witness: concrete instantiation on a table with unique keys. -/
theorem C7_pk_uniqueness_witness :
    uniquePK T1
    ∧ uniquePK (T1.update rowB)
    ∧ (T1.add rowB = none ↔ ∃ r0 ∈ T1.rows, keyOf T1.pk r0 = keyOf T1.pk rowB) := by
  have h : uniquePK T1 := by decide
  exact ⟨h, (C7_pk_uniqueness T1 rowB h).2.1, (C7_pk_uniqueness T1 rowB h).2.2⟩

/-- C6: computing the checksum of a table store twice without mutation
yields the same value, and two stores holding the same set of rows per
table produce identical checksums regardless of the incidental internal
ordering of row storage. -/
theorem C6_checksum_determinism (ts1 ts2 : TableStore)
    (h : List.Forall₂ (fun x y => x.1 = y.1 ∧ x.2.rows.Perm y.2.rows) ts1 ts2) :
    storeChecksum ts1 = storeChecksum ts1 ∧ storeChecksum ts1 = storeChecksum ts2 :=
  ⟨rfl, storeChecksum_congr h⟩

/-- C6 witness: two concrete stores with the same rows in different order
have equal checksums. -/
theorem C6_checksum_determinism_witness :
    List.Forall₂ (fun x y => x.1 = y.1 ∧ x.2.rows.Perm y.2.rows) S1 S2
    ∧ storeChecksum S1 = storeChecksum S2 := by
  have h : List.Forall₂ (fun x y => x.1 = y.1 ∧ x.2.rows.Perm y.2.rows) S1 S2 :=
    List.Forall₂.cons ⟨rfl, by decide⟩ List.Forall₂.nil
  exact ⟨h, (C6_checksum_determinism S1 S2 h).2⟩

/-- C4: the metadata differ reports identical exactly when the two store
checksums are equal; new_tables, deleted_tables and modified_tables are
exactly the set differences and pairwise checksum mismatches of the table
name keys; two stores built from the same rows report identical true. -/
theorem C4_diff_meta_correct (m1 m2 : Meta) :
    ((diff_meta m1 m2).identical = true ↔ m1.checksum = m2.checksum)
    ∧ (∀ n, n ∈ (diff_meta m1 m2).new_tables ↔ n ∈ tableNames m2 ∧ n ∉ tableNames m1)
    ∧ (∀ n, n ∈ (diff_meta m1 m2).deleted_tables ↔ n ∈ tableNames m1 ∧ n ∉ tableNames m2)
    ∧ (∀ n, n ∈ (diff_meta m1 m2).modified_tables ↔
        n ∈ tableNames m1 ∧ (n ∈ tableNames m2 ∧ lookupTC m1 n ≠ lookupTC m2 n))
    ∧ (∀ ts1 ts2 : TableStore, ∀ t1 t2 : Int,
        List.Forall₂ (fun x y => x.1 = y.1 ∧ x.2.rows.Perm y.2.rows) ts1 ts2 →
        (diff_meta (computeMeta ts1 t1) (computeMeta ts2 t2)).identical = true) := by
  refine ⟨?_, ?_, ?_, ?_, ?_⟩
  · simp [diff_meta]
  · intro n; simp [diff_meta, List.mem_filter]
  · intro n; simp [diff_meta, List.mem_filter]
  · intro n; simp [diff_meta, List.mem_filter]
  · intro ts1 ts2 t1 t2 h
    simp [diff_meta, computeMeta, storeChecksum_congr h]

/-- C4 witness: concrete instantiation, including two stores built from the
same rows reporting identical true. -/
theorem C4_diff_meta_correct_witness :
    (diff_meta (computeMeta S1 0) (computeMeta S2 5)).identical = true := by
  have h : List.Forall₂ (fun x y => x.1 = y.1 ∧ x.2.rows.Perm y.2.rows) S1 S2 :=
    List.Forall₂.cons ⟨rfl, by decide⟩ List.Forall₂.nil
  exact (C4_diff_meta_correct (computeMeta S1 0) (computeMeta S2 5)).2.2.2.2 S1 S2 0 5 h

/-- C5: the table differ matches rows by primary key only: a row of b whose
key is absent from a is added, a row of a whose key is absent from b is
removed, and a row present in both with differing field values is reported
modified with its key and changed field names, never as added plus removed;
the concrete example from the spec evaluates as stated, and diffing a table
against itself yields an empty diff. -/
theorem C5_diff_tables_correct (pk : List String) (a b : List Row)
    (ha : (a.map (keyOf pk)).Nodup) (hb : (b.map (keyOf pk)).Nodup) :
    (∀ rb, rb ∈ (diff_tables pk a b).added ↔ rb ∈ b ∧ ∀ ra ∈ a, keyOf pk ra ≠ keyOf pk rb)
    ∧ (∀ ra, ra ∈ (diff_tables pk a b).removed ↔ ra ∈ a ∧ ∀ rb ∈ b, keyOf pk rb ≠ keyOf pk ra)
    ∧ (∀ ra rb, ra ∈ a → rb ∈ b → keyOf pk ra = keyOf pk rb →
        rb ∉ (diff_tables pk a b).added ∧ ra ∉ (diff_tables pk a b).removed
        ∧ (changedFields ra rb ≠ [] →
            ({ key := keyOf pk ra, changed_fields := changedFields ra rb } : RowMod)
              ∈ (diff_tables pk a b).modified))
    ∧ diff_tables pk a a = { added := [], removed := [], modified := [] }
    ∧ diff_tables ["id"] [rowA] [rowB, rowC] =
        { added := [rowC], removed := [],
          modified := [{ key := [some (.vint 1)], changed_fields := ["name"] }] } := by
  have hadd : ∀ rb, rb ∈ (diff_tables pk a b).added
      ↔ rb ∈ b ∧ ∀ ra ∈ a, keyOf pk ra ≠ keyOf pk rb := by
    intro rb
    simp [diff_tables, List.mem_filter, Option.isNone_iff_eq_none, findByKey_eq_none]
  have hrem : ∀ ra, ra ∈ (diff_tables pk a b).removed
      ↔ ra ∈ a ∧ ∀ rb ∈ b, keyOf pk rb ≠ keyOf pk ra := by
    intro ra
    simp [diff_tables, List.mem_filter, Option.isNone_iff_eq_none, findByKey_eq_none]
  refine ⟨hadd, hrem, ?_, ?_, by decide⟩
  · intro ra rb hra hrb hkey
    refine ⟨?_, ?_, ?_⟩
    · intro hmem
      exact ((hadd rb).mp hmem).2 ra hra hkey
    · intro hmem
      exact ((hrem ra).mp hmem).2 rb hrb hkey.symm
    · intro hcf
      have hfind : findByKey pk b (keyOf pk ra) = some rb := by
        rw [hkey]; exact findByKey_self hb hrb
      refine List.mem_filterMap.mpr ⟨ra, hra, ?_⟩
      simp [hfind, hcf]
  · simp only [diff_tables, TableDiff.mk.injEq]
    refine ⟨?_, ?_, ?_⟩
    · rw [List.filter_eq_nil_iff]
      intro rb hrb
      simp [findByKey_self ha hrb]
    · rw [List.filter_eq_nil_iff]
      intro ra hra
      simp [findByKey_self ha hra]
    · rw [List.filterMap_eq_nil_iff]
      intro ra hra
      simp [findByKey_self ha hra, changedFields_self]

/-- C5 witness: concrete instantiation of the table differ. -/
theorem C5_diff_tables_correct_witness :
    ([rowA].map (keyOf ["id"])).Nodup
    ∧ ([rowB, rowC].map (keyOf ["id"])).Nodup
    ∧ diff_tables ["id"] [rowA] [rowB, rowC] =
        { added := [rowC], removed := [],
          modified := [{ key := [some (.vint 1)], changed_fields := ["name"] }] } :=
  ⟨by decide, by decide,
    (C5_diff_tables_correct ["id"] [rowA] [rowB, rowC] (by decide) (by decide)).2.2.2.2⟩

/-- A clean local working copy of S1: its base snapshot matches its
content. -/
def loc0 : LocalStore := { ts := S1, base_meta := computeMeta S1 0 }

/-- An origin whose checksum differs from the base snapshot of loc0. -/
def origin0 : Origin := { ts := [], meta := computeMeta [] 7 }

/-- A well-formed origin holding S2 (its stored meta matches its
content). -/
def origin1 : Origin := { ts := S2, meta := computeMeta S2 4 }

/-- A locally modified working copy: content S1 but base snapshot of the
empty store. -/
def cexLoc : LocalStore := { ts := S1, base_meta := computeMeta ([] : TableStore) 0 }

/-- An available backend holding origin0. -/
def bk0 : Backend := { avail := true, origin := origin0 }

/-- C1: when the recorded base checksum differs from the current origin
checksum, push with force false returns pushed false with reason
origin_has_changed carrying a time_diff and leaves origin untouched; with
force true the push succeeds, origin is overwritten with the local store,
and the recorded base checksum becomes the new origin checksum. -/
theorem C1_push_guard (loc : LocalStore) (origin : Origin) (time : Int)
    (h : origin.meta.checksum ≠ loc.base_meta.checksum) :
    push_to_origin loc origin false time =
      ({ pushed := false, reason := .origin_has_changed,
         time_diff := some |origin.meta.last_modified - loc.base_meta.last_modified| },
       loc, origin)
    ∧ (push_to_origin loc origin true time).1 =
        { pushed := true, reason := .pushed, time_diff := none }
    ∧ (push_to_origin loc origin true time).2.2.ts = loc.ts
    ∧ (push_to_origin loc origin true time).2.1.base_meta.checksum
        = (push_to_origin loc origin true time).2.2.meta.checksum := by
  refine ⟨?_, ?_, ?_, ?_⟩
  · unfold push_to_origin
    rw [if_pos ⟨h, rfl⟩]
  all_goals
    unfold push_to_origin
    rw [if_neg (fun hc => Bool.noConfusion hc.2)]

/-- C1 witness: concrete push against a changed origin. -/
theorem C1_push_guard_witness :
    origin0.meta.checksum ≠ loc0.base_meta.checksum
    ∧ (push_to_origin loc0 origin0 true 9).1 =
        { pushed := true, reason := .pushed, time_diff := none } :=
  ⟨by decide, (C1_push_guard loc0 origin0 9 (by decide)).2.1⟩

/-- C2 counterexample: a locally modified store whose current checksum
happens to equal the origin checksum. With ignore_if_modified true and
force false the pull reports up_to_date and does not overwrite the local
state, although the local content differs from the origin content, so the
claim that the pull overwrites local state is false at this input. -/
theorem C2_counterexample :
    storeChecksum cexLoc.ts ≠ cexLoc.base_meta.checksum
    ∧ pull_from_origin cexLoc origin1 true false =
        ({ pulled := true, reason := .up_to_date, table_store := none }, cexLoc)
    ∧ cexLoc.ts ≠ origin1.ts := by
  refine ⟨by decide, by decide, by decide⟩

/-- C2 (amended): for a locally modified store, pull with
ignore_if_modified false returns pulled false with reason local_is_modified
and leaves the local store unchanged; with ignore_if_modified true the pull
returns pulled true, and it overwrites the local state with the origin
content whenever the origin checksum differs from the current local
checksum or force is set. -/
theorem C2_local_modified (loc : LocalStore) (origin : Origin)
    (h : storeChecksum loc.ts ≠ loc.base_meta.checksum) :
    (∀ force, pull_from_origin loc origin false force =
        ({ pulled := false, reason := .local_is_modified, table_store := none }, loc))
    ∧ (∀ force, (pull_from_origin loc origin true force).1.pulled = true)
    ∧ (∀ force, origin.meta.checksum ≠ storeChecksum loc.ts ∨ force = true →
        pull_from_origin loc origin true force =
          ({ pulled := true, reason := .pulled_from_origin, table_store := some origin.ts },
           { ts := origin.ts, base_meta := origin.meta })) := by
  refine ⟨?_, ?_, ?_⟩
  · intro force
    unfold pull_from_origin
    rw [if_pos ⟨h, rfl⟩]
  · intro force
    unfold pull_from_origin
    rw [if_neg (fun hc => Bool.noConfusion hc.2)]
    split
    · rfl
    · rfl
  · intro force hdisj
    unfold pull_from_origin
    rw [if_neg (fun hc => Bool.noConfusion hc.2), if_neg ?_]
    rintro ⟨heq, hforce⟩
    rcases hdisj with hne | htrue
    · exact hne heq
    · rw [htrue] at hforce
      exact Bool.noConfusion hforce

/-- C2 witness for the amended claim: a concrete modified store is refused
without the flag. -/
theorem C2_local_modified_witness :
    storeChecksum cexLoc.ts ≠ cexLoc.base_meta.checksum
    ∧ pull_from_origin cexLoc origin0 false false =
        ({ pulled := false, reason := .local_is_modified, table_store := none }, cexLoc) :=
  ⟨by decide, (C2_local_modified cexLoc origin0 (by decide)).1 false⟩

/-- C3: for a local store with no local edits, if the origin checksum
equals the current local checksum and force is false the pull reports
up_to_date and transfers no data; hence pulling twice in a row against a
well-formed unchanged origin yields up_to_date the second time and the
checksum is unchanged. -/
theorem C3_pull_idempotent (loc : LocalStore) (origin : Origin) (i : Bool)
    (hclean : storeChecksum loc.ts = loc.base_meta.checksum)
    (hwf : origin.meta.checksum = storeChecksum origin.ts) :
    (origin.meta.checksum = storeChecksum loc.ts →
      pull_from_origin loc origin i false =
        ({ pulled := true, reason := .up_to_date, table_store := none }, loc))
    ∧ pull_from_origin (pull_from_origin loc origin false false).2 origin false false =
        ({ pulled := true, reason := .up_to_date, table_store := none },
         (pull_from_origin loc origin false false).2)
    ∧ storeChecksum
        (pull_from_origin (pull_from_origin loc origin false false).2 origin false false).2.ts
        = storeChecksum (pull_from_origin loc origin false false).2.ts := by
  have step : ∀ l2 : LocalStore, storeChecksum l2.ts = l2.base_meta.checksum →
      origin.meta.checksum = storeChecksum l2.ts →
      pull_from_origin l2 origin false false =
        ({ pulled := true, reason := .up_to_date, table_store := none }, l2) := by
    intro l2 h1 h2
    unfold pull_from_origin
    rw [if_neg (fun hc => hc.1 h1), if_pos ⟨h2, rfl⟩]
  have hsec : pull_from_origin (pull_from_origin loc origin false false).2 origin false false =
      ({ pulled := true, reason := .up_to_date, table_store := none },
       (pull_from_origin loc origin false false).2) := by
    by_cases hcase : origin.meta.checksum = storeChecksum loc.ts
    · have h1 := step loc hclean hcase
      rw [h1]
      exact step loc hclean hcase
    · have h1 : pull_from_origin loc origin false false =
          ({ pulled := true, reason := .pulled_from_origin, table_store := some origin.ts },
           { ts := origin.ts, base_meta := origin.meta }) := by
        unfold pull_from_origin
        rw [if_neg (fun hc => hc.1 hclean), if_neg (fun hc => hcase hc.1)]
      rw [h1]
      exact step { ts := origin.ts, base_meta := origin.meta } hwf.symm hwf
  refine ⟨?_, hsec, ?_⟩
  · intro heq
    unfold pull_from_origin
    rw [if_neg (fun hc => hc.1 hclean), if_pos ⟨heq, rfl⟩]
  · rw [hsec]

/-- C3 witness: concrete clean store, a first pull from a well-formed
origin, and the up_to_date second pull. -/
theorem C3_pull_idempotent_witness :
    storeChecksum loc0.ts = loc0.base_meta.checksum
    ∧ origin1.meta.checksum = storeChecksum origin1.ts
    ∧ pull_from_origin (pull_from_origin loc0 origin1 false false).2 origin1 false false =
        ({ pulled := true, reason := .up_to_date, table_store := none },
         (pull_from_origin loc0 origin1 false false).2) :=
  ⟨by decide, by decide, (C3_pull_idempotent loc0 origin1 false (by decide) (by decide)).2.1⟩

/-- C8: the divergence outcomes local_is_modified, origin_has_changed and
up_to_date are returned as structured result records carrying a reason
code, never as errors; only backend unavailability propagates as an error;
a refused pull or push always carries the explicit reason matching the
checksum mismatch, and a mismatch with no override always leads to an
explicit refusal, never to a silent success. -/
theorem C8_structured_results (loc : LocalStore) (b : Backend) (i f force : Bool) (time : Int) :
    (b.avail = true →
      pull_via_backend loc b i f = .ok (pull_from_origin loc b.origin i f)
      ∧ push_via_backend loc b force time = .ok (push_to_origin loc b.origin force time))
    ∧ (pull_via_backend loc b i f = .error () ↔ b.avail = false)
    ∧ (push_via_backend loc b force time = .error () ↔ b.avail = false)
    ∧ ((pull_from_origin loc b.origin i f).1.pulled = false →
        (pull_from_origin loc b.origin i f).1.reason = .local_is_modified
        ∧ storeChecksum loc.ts ≠ loc.base_meta.checksum ∧ i = false)
    ∧ ((push_to_origin loc b.origin force time).1.pushed = false →
        (push_to_origin loc b.origin force time).1.reason = .origin_has_changed
        ∧ b.origin.meta.checksum ≠ loc.base_meta.checksum ∧ force = false
        ∧ (push_to_origin loc b.origin force time).1.time_diff =
            some |b.origin.meta.last_modified - loc.base_meta.last_modified|)
    ∧ (storeChecksum loc.ts ≠ loc.base_meta.checksum ∧ i = false →
        (pull_from_origin loc b.origin i f).1.pulled = false)
    ∧ (b.origin.meta.checksum ≠ loc.base_meta.checksum ∧ force = false →
        (push_to_origin loc b.origin force time).1.pushed = false) := by
  refine ⟨?_, ?_, ?_, ?_, ?_, ?_, ?_⟩
  · intro hav
    constructor
    · unfold pull_via_backend
      rw [if_neg (fun hc => Bool.noConfusion (hav.symm.trans hc))]
    · unfold push_via_backend
      rw [if_neg (fun hc => Bool.noConfusion (hav.symm.trans hc))]
  · unfold pull_via_backend
    cases hb : b.avail <;> simp [hb]
  · unfold push_via_backend
    cases hb : b.avail <;> simp [hb]
  · unfold pull_from_origin
    split
    · rename_i hc
      exact fun _ => ⟨rfl, hc.1, hc.2⟩
    · split
      · intro hfalse
        exact absurd hfalse (by simp)
      · intro hfalse
        exact absurd hfalse (by simp)
  · unfold push_to_origin
    split
    · rename_i hc
      exact fun _ => ⟨rfl, hc.1, hc.2, rfl⟩
    · intro hfalse
      exact absurd hfalse (by simp)
  · intro h
    unfold pull_from_origin
    rw [if_pos h]
  · intro h
    unfold push_to_origin
    rw [if_pos h]

/-- C8 witness: a concrete available backend yields structured results, and
a concrete refused push carries its reason. -/
theorem C8_structured_results_witness :
    bk0.avail = true
    ∧ pull_via_backend loc0 bk0 false false = .ok (pull_from_origin loc0 bk0.origin false false)
    ∧ (push_to_origin loc0 bk0.origin false 0).1.pushed = false :=
  ⟨rfl, ((C8_structured_results loc0 bk0 false false false 0).1 rfl).1,
    (C8_structured_results loc0 bk0 false false false 0).2.2.2.2.2.2 ⟨by decide, rfl⟩⟩

/-- C9: the pull command saves the pulled table store to the local file
backend exactly when the result is pulled with reason pulled_from_origin;
a result that is pulled with reason up_to_date, or not pulled at all,
causes no save and the disk state is untouched. -/
theorem C9_pull_save_guard (disk : TableStore) (r : PullResult)
    (loc : LocalStore) (origin : Origin) (i f : Bool) :
    (r.reason ≠ .pulled_from_origin → pullCommandSave disk r = (disk, false))
    ∧ (r.pulled = false → pullCommandSave disk r = (disk, false))
    ∧ ((pull_from_origin loc origin i f).1.reason = .pulled_from_origin →
        pullCommandSave disk (pull_from_origin loc origin i f).1 = (origin.ts, true))
    ∧ ((pull_from_origin loc origin i f).1.reason = .up_to_date →
        pullCommandSave disk (pull_from_origin loc origin i f).1 = (disk, false)) := by
  refine ⟨?_, ?_, ?_, ?_⟩
  · intro h
    unfold pullCommandSave
    rw [if_neg (fun hc => h hc.2)]
  · intro h
    unfold pullCommandSave
    rw [if_neg (fun hc => Bool.noConfusion (h.symm.trans hc.1))]
  · unfold pull_from_origin
    split
    · intro h
      exact absurd h (by simp)
    · split
      · intro h
        exact absurd h (by simp)
      · intro _
        simp [pullCommandSave]
  · unfold pull_from_origin
    split
    · intro h
      exact absurd h (by simp)
    · split
      · intro _
        simp [pullCommandSave]
      · intro h
        exact absurd h (by simp)

/-- C9 witness: a concrete refused pull result leaves the disk untouched,
and a concrete pulled_from_origin result is saved. -/
theorem C9_pull_save_guard_witness :
    pullCommandSave S1 { pulled := false, reason := .local_is_modified, table_store := none }
      = (S1, false)
    ∧ (pull_from_origin loc0 origin0 false true).1.reason = .pulled_from_origin
    ∧ pullCommandSave S1 (pull_from_origin loc0 origin0 false true).1 = (origin0.ts, true) :=
  ⟨(C9_pull_save_guard S1 { pulled := false, reason := .local_is_modified, table_store := none }
      loc0 origin0 false true).2.1 rfl,
   by decide,
   (C9_pull_save_guard S1 { pulled := false, reason := .local_is_modified, table_store := none }
      loc0 origin0 false true).2.2.1 (by decide)⟩

/-- C10: the push command writes the local table store back to the local
file backend only after push_to_origin reports pushed true; when the push
is refused the disk state is left exactly as it was. -/
theorem C10_push_save_guard (disk : TableStore) (loc : LocalStore) (origin : Origin)
    (force : Bool) (time : Int) :
    ((pushCommand disk loc origin force time).2.1.pushed = false →
      (pushCommand disk loc origin force time).1 = (disk, false))
    ∧ ((pushCommand disk loc origin force time).2.1.pushed = true →
      (pushCommand disk loc origin force time).1 = (loc.ts, true))
    ∧ (pushCommand disk loc origin force time).2 = push_to_origin loc origin force time := by
  cases hp : (push_to_origin loc origin force time).1.pushed
  · simp [pushCommand, hp]
  · simp [pushCommand, hp]

/-- C10 witness: a concrete refused push leaves the disk untouched. -/
theorem C10_push_save_guard_witness :
    (pushCommand S1 loc0 origin0 false 0).2.1.pushed = false
    ∧ (pushCommand S1 loc0 origin0 false 0).1 = (S1, false) :=
  ⟨by decide, (C10_push_save_guard S1 loc0 origin0 false 0).1 (by decide)⟩

end DriftConfig
